import Mathlib

/-!
Shallow embedding of the training control logic of src/train_drmm.py
(DRMM training loop: pairwise hinge loss, cycling batch iterators,
validation sampling, two-level best-checkpoint gating).

Modelling conventions:
* float losses and scores are embedded as rationals (ℚ); the initial
  value float('inf') of min_loss / prev_loss is embedded as (none : Option ℚ),
  with the comparison helpers optLt / optLe matching IEEE comparisons
  against +infinity (no NaN arises in the modelled runs);
* model parameter tensors are abstracted to a single Int value; the
  optimizer step and the validation losses are oracle functions, since the
  numeric collaborators (Model, Optimizer, EmbeddingProvider) are external;
* Python iterator objects are heap objects: next(it) mutates the shared
  object, while rebinding the local name (iterator = iter(dataloader))
  allocates a fresh object without changing the caller's binding.  This is
  embedded by an explicit store IterStore of iterator positions, addressed
  by iterator ids;
* PyTorch Module.state_dict() returns a dict of references into the live
  parameter tensors (no deep copy), and AdamW mutates parameters in place;
  hence torch.save(best_state_dict, path) serializes the parameter values
  current at save time.  The embedding records both the serialized (live)
  values and, as bookkeeping, the values the parameters had when
  state_dict() was called, so the two can be compared.
-/

namespace DRMM

/-! ## loss_fn (train_drmm.py lines 13-15)

    z = torch.zeros(scores_pos.shape); sum(max(z, 1.0 - scores_pos + scores_neg)).
    Score tensors are embedded as lists of rationals; the device argument only
    controls tensor placement and is dropped. -/

def loss_fn (scores_pos scores_neg : List ℚ) : ℚ :=
  (List.zipWith (fun sp sn => max 0 (1 - sp + sn)) scores_pos scores_neg).sum

/-! ## model_fn (train_drmm.py lines 17-26)

    The body calls the GLOBAL drmm_model, not the model parameter; the global
    is made explicit as the first argument since Lean has no ambient globals.
    Embedding vectors are abstracted to single rationals. -/

abbrev Tok := Nat

structure Batch where
  query : List Tok
  pos_doc : List Tok
  neg_doc : List Tok
  query_len : Nat

/-- A scorer: (query embeddings, doc embeddings, query length) ↦ per-element scores. -/
abbrev ScoreFn := List ℚ → List ℚ → Nat → List ℚ

def model_fn (drmm_model : ScoreFn) (batch : Batch) (word_embedding : Tok → ℚ)
    (model : ScoreFn) : ℚ :=
  let query := batch.query.map word_embedding
  let pos_doc := batch.pos_doc.map word_embedding
  let neg_doc := batch.neg_doc.map word_embedding
  let scores_pos := drmm_model query pos_doc batch.query_len
  let scores_neg := drmm_model query neg_doc batch.query_len
  loss_fn scores_pos scores_neg

/-! ## Iterator heap

    A Python iterator over a DataLoader of dlLen batches is a heap object
    holding a position; batches are identified by their index in the pass. -/

abbrev ItId := Nat

structure IterStore where
  pos : ItId → Nat
  fresh : ItId

/-- next(it): returns the batch at the current position and advances the shared
    object, or signals StopIteration (none) when the pass is exhausted. -/
def itNext (dlLen : Nat) (st : IterStore) (i : ItId) : Option (Nat × IterStore) :=
  if st.pos i < dlLen then
    some (st.pos i, { st with pos := fun j => if j = i then st.pos i + 1 else st.pos j })
  else none

/-- iter(dataloader): allocates a fresh iterator object at position 0. -/
def allocIter (st : IterStore) : ItId × IterStore :=
  (st.fresh, { pos := fun j => if j = st.fresh then 0 else st.pos j, fresh := st.fresh + 1 })

/-- The initial heap: one iterator object (id 0) at position 0, as set up by
    test_iterator = iter(test_loader) in the main block. -/
def store0 : IterStore := { pos := fun _ => 0, fresh := 1 }

/-! ## valid_fn (train_drmm.py lines 28-47) -/

/-- Model mode: drmm_model.train() / drmm_model.eval() toggle on the global model. -/
inductive Mode where
  | training
  | inference
  deriving DecidableEq

/-- Exceptions that can escape the sampling loop of valid_fn. -/
inductive VErr where
  | stopIteration
  | modelError
  deriving DecidableEq

def isOkB {ε α : Type} : Except ε α → Bool
  | Except.ok _ => true
  | Except.error _ => false

/-- The for-loop of valid_fn.  mf b embeds the (possibly raising) call
    model_fn(batch_b, word_embedding, model, device) under torch.no_grad();
    bs is batch_size.  The iterator NAME is the local variable: on
    StopIteration the code rebinds it to a fresh object (iterator =
    iter(dataloader)), which updates the heap and the local id only.
    Accumulates running_loss += loss.item() / batch_size and the list of
    visited batch indices (most recent first, reversed at the end). -/
def validLoop (dlLen : Nat) (mf : Nat → Except Unit ℚ) (bs : ℚ) :
    Nat → IterStore → ItId → ℚ → List Nat → IterStore × Except VErr (ℚ × List Nat)
  | 0, store, _, acc, visited => (store, Except.ok (acc, visited.reverse))
  | Nat.succ k, store, it, acc, visited =>
    match itNext dlLen store it with
    | some (b, store1) =>
      match mf b with
      | Except.ok l => validLoop dlLen mf bs k store1 it (acc + l / bs) (b :: visited)
      | Except.error _ => (store1, Except.error VErr.modelError)
    | none =>
      match allocIter store with
      | (it2, store1) =>
        match itNext dlLen store1 it2 with
        | some (b, store2) =>
          match mf b with
          | Except.ok l => validLoop dlLen mf bs k store2 it2 (acc + l / bs) (b :: visited)
          | Except.error _ => (store2, Except.error VErr.modelError)
        | none => (store1, Except.error VErr.stopIteration)

/-- valid_fn: drmm_model.eval(); run the sampling loop; on normal completion
    drmm_model.train() and return running_loss / valid_num.  The returned Mode
    is the mode of the global model when control leaves valid_fn (normally or
    by exception propagation: the code has no try/finally, so drmm_model.train()
    runs only after the loop completes).  The caller receives the updated heap
    but keeps its own iterator id (Python passes the binding by value). -/
def valid_fn (dlLen vnum : Nat) (mf : Nat → Except Unit ℚ) (bs : ℚ)
    (store : IterStore) (it : ItId) :
    Mode × IterStore × Except VErr (ℚ × List Nat) :=
  match validLoop dlLen mf bs vnum store it 0 [] with
  | (store1, Except.ok (acc, visited)) =>
    (Mode.training, store1, Except.ok (acc / (vnum : ℚ), visited))
  | (store1, Except.error e) => (Mode.inference, store1, Except.error e)

/-! ## The training-loop batch cycler (train_drmm.py lines 120-125)

    In the main block the rebuilt iterator is assigned to train_iterator in
    the same scope, so a plain cursor (position into a pass of len batches)
    models it; batches are their indices in the pass. -/

def next_batch (len pos : Nat) : Except Unit (Nat × Nat) :=
  if pos < len then Except.ok (pos, pos + 1)
  else if 0 < len then Except.ok (0, 1)
  else Except.error ()

/-- Draw k successive batches starting from cursor position pos. -/
def drawN (len : Nat) : Nat → Nat → Except Unit (List Nat × Nat)
  | 0, pos => Except.ok ([], pos)
  | Nat.succ k, pos =>
    match next_batch len pos with
    | Except.ok bp =>
      match drawN len k bp.2 with
      | Except.ok lp => Except.ok (bp.1 :: lp.1, lp.2)
      | Except.error e => Except.error e
    | Except.error e => Except.error e

/-! ## The training loop state machine (train_drmm.py lines 115-156) -/

/-- One torch.save event.  liveParams is what the serializer reads: the
    parameter tensors' contents at save time (state_dict entries alias the
    live tensors).  snapParams is bookkeeping: the value the parameters had
    when best_state_dict = drmm_model.state_dict() was executed.  loss is the
    min_loss recorded at the write (printed in the confirmation message). -/
structure WriteEv where
  liveParams : Int
  snapParams : Option Int
  loss : Option ℚ
  deriving DecidableEq

structure LoopState where
  step : Nat
  minLoss : Option ℚ
  prevLoss : Option ℚ
  best : Option Int
  params : Int
  writes : List WriteEv
  msgs : List (Option ℚ)
  deriving DecidableEq

/-- Python float strict comparison with none = +infinity. -/
def optLt : Option ℚ → Option ℚ → Bool
  | none, _ => false
  | some _, none => true
  | some a, some b => decide (a < b)

/-- Non-strict order with none = +infinity (the top element). -/
def optLe : Option ℚ → Option ℚ → Prop
  | none, none => True
  | none, some _ => False
  | some _, none => True
  | some a, some b => a ≤ b

instance (a b : Option ℚ) : Decidable (optLe a b) :=
  match a, b with
  | none, none => isTrue trivial
  | none, some _ => isFalse (fun h => h)
  | some _, none => isTrue trivial
  | some x, some y => inferInstanceAs (Decidable (x ≤ y))

/-- loss.backward(); optimizer.step(); optimizer.zero_grad(): the parameters
    are updated in place by the optimizer oracle. -/
def trainStep (opt : Int → Int) (s : LoopState) : LoopState :=
  { s with params := opt s.params }

/-- The validation block: if (step+1) % valid_steps == 0 then valid_loss =
    valid_fn(...); if valid_loss < min_loss then update min_loss and take
    best_state_dict = drmm_model.state_dict() (recording the current params
    as the snapshot-time value).  vl n is the loss valid_fn returns at
    1-based step n. -/
def validStep (vs : Nat) (vl : Nat → ℚ) (s : LoopState) : LoopState :=
  if (s.step + 1) % vs = 0 then
    if optLt (some (vl (s.step + 1))) s.minLoss then
      { s with minLoss := some (vl (s.step + 1)), best := some s.params }
    else s
  else s

/-- The save block: if (step+1) % save_steps == 0 and min_loss < prev_loss
    then torch.save(best_state_dict, model_path); prev_loss = min_loss;
    pbar.write message with min_loss. -/
def saveStep (ss : Nat) (s : LoopState) : LoopState :=
  if (s.step + 1) % ss = 0 then
    if optLt s.minLoss s.prevLoss then
      { s with prevLoss := s.minLoss,
               writes := { liveParams := s.params, snapParams := s.best,
                           loss := s.minLoss } :: s.writes,
               msgs := s.minLoss :: s.msgs }
    else s
  else s

def incStep (s : LoopState) : LoopState := { s with step := s.step + 1 }

/-- One iteration of the while True loop, in source order: train step,
    validation block, save block, step += 1. -/
def loopIter (vs ss : Nat) (vl : Nat → ℚ) (opt : Int → Int) (s : LoopState) : LoopState :=
  incStep (saveStep ss (validStep vs vl (trainStep opt s)))

/-- step = 0; min_loss = inf; prev_loss = inf; best_state_dict = None. -/
def initState (p0 : Int) : LoopState :=
  { step := 0, minLoss := none, prevLoss := none, best := none, params := p0,
    writes := [], msgs := [] }

def run (vs ss : Nat) (vl : Nat → ℚ) (opt : Int → Int) (p0 : Int) : Nat → LoopState
  | 0 => initState p0
  | Nat.succ m => loopIter vs ss vl opt (run vs ss vl opt p0 m)

/-- Loss recorded by the most recent torch.save, none if nothing was saved yet. -/
def lastWriteLoss : List WriteEv → Option ℚ
  | [] => none
  | e :: _ => e.loss

/-! ## Concrete instances used by the claim theorems and witnesses -/

/-- A model_fn oracle that always succeeds with loss 0. -/
def vLossZero : Nat → Except Unit ℚ := fun _ => Except.ok 0

/-- A model_fn oracle that raises inside the sampling loop on batch 1. -/
def mfErr : Nat → Except Unit ℚ := fun b => if b = 1 then Except.error () else Except.ok 0

/-- Three successive calls to valid_fn on a 3-batch validation loader with
    valid_num = 2, exactly as the main loop performs them: the caller passes
    the same iterator id 0 every time and threads the heap through. -/
def c1call1 : Mode × IterStore × Except VErr (ℚ × List Nat) :=
  valid_fn 3 2 vLossZero 1 store0 0

def c1call2 : Mode × IterStore × Except VErr (ℚ × List Nat) :=
  valid_fn 3 2 vLossZero 1 c1call1.2.1 0

def c1call3 : Mode × IterStore × Except VErr (ℚ × List Nat) :=
  valid_fn 3 2 vLossZero 1 c1call2.2.1 0

/-- The dataset positions a valid_fn call consumed, in order. -/
def visitedOf (r : Mode × IterStore × Except VErr (ℚ × List Nat)) : List Nat :=
  match r.2.2 with
  | Except.ok p => p.2
  | Except.error _ => []

/-- Validation-loss oracle for the checkpoint counterexamples: loss 5 at the
    first validation, 9 afterwards. -/
def exValidLoss : Nat → ℚ := fun n => if n = 1 then 5 else 9

/-- Optimizer oracle: each AdamW step changes the parameters (here: +1). -/
def exOptStep : Int → Int := fun p => p + 1

/-- A loop state just before a save point with an unpersisted candidate. -/
def exSaveState : LoopState :=
  { step := 3, minLoss := some 2, prevLoss := none, best := some 7, params := 9,
    writes := [], msgs := [] }

/-- Scorer standing for the global drmm_model in the C6 scenario: ignores its
    inputs and returns score 0. -/
def ambient_model : ScoreFn := fun _ _ _ => [0]

/-- Scorer passed as the model argument in the C6 scenario: scores a document
    by the sum of its embeddings. -/
def passed_model : ScoreFn := fun _ d _ => [d.sum]

def ex_batch : Batch := { query := [0], pos_doc := [2], neg_doc := [1], query_len := 1 }

def ex_embedding : Tok → ℚ := fun t => (t : ℚ)

/-- The checkpoint-gating invariant maintained by the training loop: min_loss
    never exceeds prev_loss, prev_loss is the loss recorded by the last write,
    best_state_dict is None exactly while min_loss is still infinite, every
    write carries a snapshot handle and a finite recorded loss, and both loss
    trackers hold either infinity or a validation loss returned at some
    validation step. -/
def Inv (vs : Nat) (vl : Nat → ℚ) (s : LoopState) : Prop :=
  optLe s.minLoss s.prevLoss ∧
  s.prevLoss = lastWriteLoss s.writes ∧
  (s.best = none ↔ s.minLoss = none) ∧
  (∀ e ∈ s.writes, e.snapParams ≠ none ∧ e.loss ≠ none) ∧
  (s.minLoss = none ∨ ∃ n, n % vs = 0 ∧ s.minLoss = some (vl n)) ∧
  (s.prevLoss = none ∨ ∃ n, n % vs = 0 ∧ s.prevLoss = some (vl n))

/-! ## Helper lemmas -/

theorem optLe_refl (a : Option ℚ) : optLe a a := by
  cases a <;> simp [optLe]

theorem optLe_trans {a b c : Option ℚ} (h1 : optLe a b) (h2 : optLe b c) : optLe a c := by
  cases a <;> cases b <;> cases c <;> simp [optLe] at * <;> exact le_trans h1 h2

theorem optLt_imp_optLe {a b : Option ℚ} (h : optLt a b = true) : optLe a b := by
  cases a <;> cases b <;> simp [optLt, optLe] at * <;> exact le_of_lt h

theorem optLt_none_left (b : Option ℚ) : optLt none b = false := rfl

theorem optLt_optLe_trans {a b c : Option ℚ} (h1 : optLt a b = true) (h2 : optLe b c) :
    optLe a c :=
  optLe_trans (optLt_imp_optLe h1) h2

/-! ## Claim theorems -/

/-- Claim C9: loss_fn on equal positive and negative score lists returns the
    batch size (each element contributes max(0, 1 - s + s) = 1), and when every
    positive score exceeds its paired negative score by at least 1 it returns 0. -/
theorem loss_fn_margin_props :
    (∀ s : List ℚ, loss_fn s s = (s.length : ℚ)) ∧
    (∀ sp sn : List ℚ, List.Forall₂ (fun p n => n + 1 ≤ p) sp sn → loss_fn sp sn = 0) := by
  constructor
  · intro s
    induction s with
    | nil => simp [loss_fn]
    | cons x xs ih =>
      simp only [loss_fn, List.zipWith_cons_cons, List.sum_cons] at *
      rw [ih]
      have h1 : (1 : ℚ) - x + x = 1 := by ring
      rw [h1, max_eq_right (by norm_num : (0:ℚ) ≤ 1), List.length_cons]
      push_cast
      ring
  · intro sp sn h
    induction h with
    | nil => simp [loss_fn]
    | @cons a b l1 l2 hpn htl ih =>
      simp only [loss_fn, List.zipWith_cons_cons, List.sum_cons]
      simp only [loss_fn] at ih
      rw [ih]
      have ht : (1 : ℚ) - a + b ≤ 0 := by linarith
      rw [max_eq_left ht]
      ring

/-- Witness for C9 at batch size 2. -/
theorem loss_fn_margin_props_witness :
    loss_fn [(2:ℚ), 3] [2, 3] = (([(2:ℚ), 3]).length : ℚ) ∧
    loss_fn [(5:ℚ), 5] [1, 4] = 0 :=
  ⟨loss_fn_margin_props.1 [2, 3],
   loss_fn_margin_props.2 [5, 5] [1, 4]
     (List.Forall₂.cons (by norm_num) (List.Forall₂.cons (by norm_num) List.Forall₂.nil))⟩

/-- Claim C6: model_fn scores through the global drmm_model and ignores its
    model argument.  With the ambient scorer returning 0 for everything, the
    result is 1 for the example batch whatever model is passed; scoring the
    same batch through the passed scorer (documents scored by their embedding
    sum) would give 0 instead. -/
theorem model_fn_ignores_model_arg :
    (∀ m : ScoreFn, model_fn ambient_model ex_batch ex_embedding m = 1) ∧
    model_fn passed_model ex_batch ex_embedding ambient_model = 0 := by
  constructor
  · intro m
    simp only [model_fn, ambient_model, ex_batch, ex_embedding, loss_fn,
      List.zipWith_cons_cons, List.zipWith_nil_right, List.sum_cons, List.sum_nil]
    norm_num
  · simp only [model_fn, passed_model, ambient_model, ex_batch, ex_embedding, loss_fn,
      List.map_cons, List.map_nil, List.sum_cons, List.sum_nil,
      List.zipWith_cons_cons, List.zipWith_nil_right]
    norm_num

/-- Claim C7 counterexample: on an empty dataset the rebuilt cursor's first
    draw raises StopIteration to the caller (next(iter(dataloader)) inside the
    except handler re-raises), so the cycler does not satisfy never-raises for
    every finite dataset. -/
theorem next_batch_raises_on_empty : next_batch 0 0 = Except.error () := rfl

/-- Claim C7 (amended to nonempty datasets): the cycler never raises, pulling
    past exhaustion rebuilds the cursor and returns its first batch, and one
    pass visits every element exactly once before any repeat. -/
theorem next_batch_cycles (len : Nat) (hlen : 0 < len) :
    (∀ pos, ∃ b pos2, next_batch len pos = Except.ok (b, pos2)) ∧
    (∀ pos, len ≤ pos → next_batch len pos = Except.ok (0, 1)) ∧
    drawN len len 0 = Except.ok (List.range len, len) ∧
    (List.range len).Nodup ∧ (∀ i, i < len → i ∈ List.range len) := by
  have hdraw : ∀ k pos, pos + k ≤ len →
      drawN len k pos = Except.ok (List.range' pos k, pos + k) := by
    intro k
    induction k with
    | zero => intro pos _; simp [drawN, List.range']
    | succ k ih =>
      intro pos hpos
      have h1 : pos < len := by omega
      have h2 : pos + 1 + k ≤ len := by omega
      simp only [drawN, next_batch, if_pos h1, ih (pos + 1) h2]
      have h3 : pos + 1 + k = pos + (k + 1) := by omega
      rw [List.range'_succ, h3]
  refine ⟨?_, ?_, ?_, List.nodup_range len, ?_⟩
  · intro pos
    by_cases h : pos < len
    · exact ⟨pos, pos + 1, by simp [next_batch, if_pos h]⟩
    · exact ⟨0, 1, by simp [next_batch, if_neg h, if_pos hlen]⟩
  · intro pos h
    have h1 : ¬ pos < len := by omega
    simp [next_batch, if_neg h1, if_pos hlen]
  · have := hdraw len 0 (by omega)
    simpa [List.range_eq_range'] using this
  · intro i hi
    simpa [List.mem_range] using hi

/-- Witness for C7's amended theorem on a 3-batch dataset. -/
theorem next_batch_cycles_witness :
    next_batch 3 7 = Except.ok (0, 1) ∧ drawN 3 3 0 = Except.ok (List.range 3, 3) :=
  ⟨(next_batch_cycles 3 (by norm_num)).2.1 7 (by norm_num),
   (next_batch_cycles 3 (by norm_num)).2.2.1⟩

/-- Claim C1: the validation cursor is NOT persistent across calls once it is
    exhausted inside a call.  On a 3-batch validation set with valid_num = 2,
    call 1 visits batches 0,1; call 2 visits 2 and then — after the rebuild that
    only rebinds valid_fn's local name — 0 of a fresh pass; call 3 finds the
    caller's cursor still exhausted and restarts from batch 0.  Calls 2 and 3
    overlap at batch 0, and call 3 restarts from the beginning. -/
theorem valid_cursor_reset_after_exhaustion :
    visitedOf c1call1 = [0, 1] ∧ visitedOf c1call2 = [2, 0] ∧
    visitedOf c1call3 = [0, 1] ∧ (0 ∈ visitedOf c1call2 ∧ 0 ∈ visitedOf c1call3) := by
  refine ⟨?_, ?_, ?_, ?_, ?_⟩ <;> decide

/-- Claim C2 counterexample: when model_fn raises on the second sampled batch,
    the exception propagates out of valid_fn with the global model still in
    inference mode — drmm_model.train() is never executed (no try/finally). -/
theorem valid_fn_mode_not_restored_on_error :
    (valid_fn 3 2 mfErr 1 store0 0).1 = Mode.inference := by decide

/-- Claim C2 (amended): valid_fn restores training mode exactly on normal
    completion; when an exception escapes the sampling loop the model is left
    in inference mode. -/
theorem valid_fn_mode_restoration (dlLen vnum : Nat) (mf : Nat → Except Unit ℚ)
    (bs : ℚ) (store : IterStore) (it : ItId) (m : Mode) (store1 : IterStore)
    (res : Except VErr (ℚ × List Nat))
    (h : valid_fn dlLen vnum mf bs store it = (m, store1, res)) :
    (isOkB res = true → m = Mode.training) ∧ (isOkB res = false → m = Mode.inference) := by
  unfold valid_fn at h
  rcases hl : validLoop dlLen mf bs vnum store it 0 [] with ⟨st2, r⟩
  rw [hl] at h
  cases r with
  | ok p =>
    rcases p with ⟨acc, vis⟩
    simp only at h
    injection h with h1 h2
    injection h2 with h2a h2b
    subst h1; subst h2b
    simp [isOkB]
  | error e =>
    simp only at h
    injection h with h1 h2
    injection h2 with h2a h2b
    subst h1; subst h2b
    simp [isOkB]

/-- Witness for C2's amended theorem: a normally completing call ends with the
    model back in training mode. -/
theorem valid_fn_mode_restoration_witness :
    (valid_fn 3 1 vLossZero 1 store0 0).1 = Mode.training :=
  (valid_fn_mode_restoration 3 1 vLossZero 1 store0 0
    (valid_fn 3 1 vLossZero 1 store0 0).1
    (valid_fn 3 1 vLossZero 1 store0 0).2.1
    (valid_fn 3 1 vLossZero 1 store0 0).2.2 rfl).1 (by decide)

/-- Claim C3: best_state_dict aliases the live parameter tensors, so the
    checkpoint write persists the parameters as further mutated by later
    optimizer steps, not the snapshot-time values.  With valid_steps = 1,
    save_steps = 2, validation losses 5 then 9, and one optimizer increment per
    step from 0: the improving validation at step 1 snapshots params = 1, but
    the save at step 2 serializes params = 2. -/
theorem checkpoint_saves_live_params :
    (run 1 2 exValidLoss exOptStep 0 2).writes =
      [{ liveParams := 2, snapParams := some 1, loss := some 5 }] ∧
    (∀ e ∈ (run 1 2 exValidLoss exOptStep 0 2).writes,
      some e.liveParams ≠ e.snapParams) := by
  refine ⟨by decide, by decide⟩

/-- Claim C5: at a save point, if min_loss < prev_loss the best snapshot is
    persisted with the recorded loss min_loss, prev_loss becomes min_loss and a
    confirmation message carrying that loss is emitted; otherwise the save step
    changes nothing. -/
theorem save_step_gate (ss : Nat) (s : LoopState) (hn : (s.step + 1) % ss = 0) :
    (optLt s.minLoss s.prevLoss = true →
      ∃ l, s.minLoss = some l ∧
        saveStep ss s =
          { s with prevLoss := some l,
                   writes := { liveParams := s.params, snapParams := s.best,
                               loss := some l } :: s.writes,
                   msgs := some l :: s.msgs }) ∧
    (optLt s.minLoss s.prevLoss = false → saveStep ss s = s) := by
  constructor
  · intro hgate
    cases hm : s.minLoss with
    | none => rw [hm] at hgate; simp [optLt] at hgate
    | some l =>
      refine ⟨l, rfl, ?_⟩
      unfold saveStep
      rw [if_pos hn, if_pos hgate, hm]
  · intro hgate
    unfold saveStep
    rw [if_pos hn, hgate]
    simp

/-- Witness for C5 at a concrete save point (step index 4, save_steps 4,
    candidate loss 2 against prev_loss = infinity). -/
theorem save_step_gate_witness :
    saveStep 4 exSaveState =
      { exSaveState with
          prevLoss := some 2,
          writes := [{ liveParams := 9, snapParams := some 7, loss := some 2 }],
          msgs := [some 2] } := by
  obtain ⟨l, hl, he⟩ := (save_step_gate 4 exSaveState (by decide)).1 (by decide)
  have h2 : (2 : ℚ) = l := by
    have hx : some (2 : ℚ) = some l := hl
    injection hx
  subst h2
  exact he

/-! ## Invariant preservation for the training loop -/

theorem inv_trainStep (vs : Nat) (vl : Nat → ℚ) (opt : Int → Int) (s : LoopState)
    (h : Inv vs vl s) : Inv vs vl (trainStep opt s) := h

theorem inv_incStep (vs : Nat) (vl : Nat → ℚ) (s : LoopState)
    (h : Inv vs vl s) : Inv vs vl (incStep s) := h

theorem inv_validStep (vs : Nat) (vl : Nat → ℚ) (s : LoopState)
    (h : Inv vs vl s) : Inv vs vl (validStep vs vl s) := by
  unfold validStep
  split
  · split
    · rename_i hmod hlt
      obtain ⟨h1, h2, h3, h4, h5, h6⟩ := h
      refine ⟨optLt_optLe_trans hlt h1, h2, by simp, h4, ?_, h6⟩
      right
      exact ⟨s.step + 1, hmod, rfl⟩
    · exact h
  · exact h

theorem inv_saveStep (vs : Nat) (vl : Nat → ℚ) (ss : Nat) (s : LoopState)
    (h : Inv vs vl s) : Inv vs vl (saveStep ss s) := by
  unfold saveStep
  split
  · split
    · rename_i hmod hgate
      obtain ⟨h1, h2, h3, h4, h5, h6⟩ := h
      have hmin : s.minLoss ≠ none := by
        intro hn
        rw [hn] at hgate
        simp [optLt] at hgate
      refine ⟨optLe_refl _, rfl, h3, ?_, h5, ?_⟩
      · intro e he
        rcases List.mem_cons.mp he with he1 | he2
        · subst he1
          exact ⟨fun hb => hmin (h3.mp hb), hmin⟩
        · exact h4 e he2
      · rcases h5 with h5a | h5b
        · exact absurd h5a hmin
        · right
          exact h5b
    · exact h
  · exact h

theorem inv_loopIter (vs ss : Nat) (vl : Nat → ℚ) (opt : Int → Int) (s : LoopState)
    (h : Inv vs vl s) : Inv vs vl (loopIter vs ss vl opt s) :=
  inv_incStep vs vl _
    (inv_saveStep vs vl ss _ (inv_validStep vs vl _ (inv_trainStep vs vl opt s h)))

theorem inv_run (vs ss : Nat) (vl : Nat → ℚ) (opt : Int → Int) (p0 : Int) :
    ∀ m : Nat, Inv vs vl (run vs ss vl opt p0 m) := by
  intro m
  induction m with
  | zero =>
    refine ⟨trivial, rfl, by simp [run, initState], ?_, Or.inl rfl, Or.inl rfl⟩
    intro e he
    simp [run, initState] at he
  | succ m ih => exact inv_loopIter vs ss vl opt _ ih

theorem validStep_prevLoss (vs : Nat) (vl : Nat → ℚ) (s : LoopState) :
    (validStep vs vl s).prevLoss = s.prevLoss := by
  unfold validStep
  split
  · split
    · rfl
    · rfl
  · rfl

theorem saveStep_prevLoss_le (ss : Nat) (s : LoopState) :
    optLe (saveStep ss s).prevLoss s.prevLoss := by
  unfold saveStep
  split
  · split
    · rename_i hgate
      exact optLt_imp_optLe hgate
    · exact optLe_refl _
  · exact optLe_refl _

theorem loopIter_prevLoss_le (vs ss : Nat) (vl : Nat → ℚ) (opt : Int → Int) (s : LoopState) :
    optLe (loopIter vs ss vl opt s).prevLoss s.prevLoss := by
  have h1 := saveStep_prevLoss_le ss (validStep vs vl (trainStep opt s))
  rw [validStep_prevLoss] at h1
  exact h1

theorem run_prevLoss_mono (vs ss : Nat) (vl : Nat → ℚ) (opt : Int → Int) (p0 : Int) :
    ∀ m k : Nat, k ≤ m →
      optLe (run vs ss vl opt p0 m).prevLoss (run vs ss vl opt p0 k).prevLoss := by
  intro m
  induction m with
  | zero =>
    intro k hk
    rw [Nat.le_zero.mp hk]
    exact optLe_refl _
  | succ m ih =>
    intro k hk
    rcases Nat.eq_or_lt_of_le hk with heq | hlt
    · rw [heq]
      exact optLe_refl _
    · exact optLe_trans (loopIter_prevLoss_le vs ss vl opt _)
        (ih k (Nat.lt_succ_iff.mp hlt))

/-- Claim C4: across every run of the training loop, prev_loss is monotonically
    non-increasing, prev_loss equals the loss recorded by the last checkpoint
    actually written (infinity while none exists), min_loss never exceeds
    prev_loss, and a finite prev_loss is always a validation loss returned at
    some validation step. -/
theorem prev_loss_invariants (vs ss : Nat) (vl : Nat → ℚ) (opt : Int → Int) (p0 : Int)
    (m : Nat) :
    (∀ k, k ≤ m →
      optLe (run vs ss vl opt p0 m).prevLoss (run vs ss vl opt p0 k).prevLoss) ∧
    (run vs ss vl opt p0 m).prevLoss = lastWriteLoss (run vs ss vl opt p0 m).writes ∧
    optLe (run vs ss vl opt p0 m).minLoss (run vs ss vl opt p0 m).prevLoss ∧
    ((run vs ss vl opt p0 m).prevLoss = none ∨
      ∃ n, n % vs = 0 ∧ (run vs ss vl opt p0 m).prevLoss = some (vl n)) := by
  obtain ⟨h1, h2, _h3, _h4, _h5, h6⟩ := inv_run vs ss vl opt p0 m
  exact ⟨fun k hk => run_prevLoss_mono vs ss vl opt p0 m k hk, h2, h1, h6⟩

/-- Witness for C4 on a concrete five-iteration run. -/
theorem prev_loss_invariants_witness :
    optLe (run 1 2 exValidLoss exOptStep 0 5).prevLoss
      (run 1 2 exValidLoss exOptStep 0 2).prevLoss ∧
    (run 1 2 exValidLoss exOptStep 0 5).prevLoss =
      lastWriteLoss (run 1 2 exValidLoss exOptStep 0 5).writes :=
  ⟨(prev_loss_invariants 1 2 exValidLoss exOptStep 0 5).1 2 (by norm_num),
   (prev_loss_invariants 1 2 exValidLoss exOptStep 0 5).2.1⟩

/-- Claim C10: while min_loss still holds its initial infinity, prev_loss is
    also infinite, the save gate min_loss < prev_loss is false and nothing has
    been written; moreover no write ever carries a None snapshot. -/
theorem no_save_before_first_validation (vs ss : Nat) (vl : Nat → ℚ) (opt : Int → Int)
    (p0 : Int) (m : Nat) :
    ((run vs ss vl opt p0 m).minLoss = none →
      (run vs ss vl opt p0 m).prevLoss = none ∧
      optLt (run vs ss vl opt p0 m).minLoss (run vs ss vl opt p0 m).prevLoss = false ∧
      (run vs ss vl opt p0 m).writes = []) ∧
    (∀ e ∈ (run vs ss vl opt p0 m).writes, e.snapParams ≠ none) := by
  obtain ⟨h1, h2, _h3, h4, _h5, _h6⟩ := inv_run vs ss vl opt p0 m
  constructor
  · intro hmin
    have hprev : (run vs ss vl opt p0 m).prevLoss = none := by
      rw [hmin] at h1
      cases hp : (run vs ss vl opt p0 m).prevLoss with
      | none => rfl
      | some q =>
        rw [hp] at h1
        exact absurd h1 (by simp [optLe])
    refine ⟨hprev, by rw [hmin]; rfl, ?_⟩
    cases hw : (run vs ss vl opt p0 m).writes with
    | nil => rfl
    | cons e tl =>
      exfalso
      rw [hw] at h2 h4
      rw [hprev] at h2
      exact (h4 e (List.mem_cons_self e tl)).2 h2.symm
  · intro e he
    exact (h4 e he).1

/-- Witness for C10: a two-iteration run that never reaches a validation step
    keeps prev_loss infinite and writes nothing. -/
theorem no_save_before_first_validation_witness :
    (run 5 5 exValidLoss exOptStep 0 2).prevLoss = none ∧
    (run 5 5 exValidLoss exOptStep 0 2).writes = [] := by
  have h := (no_save_before_first_validation 5 5 exValidLoss exOptStep 0 2).1 (by decide)
  exact ⟨h.1, h.2.2⟩

/-! ## The valid_fn sampling contract -/

theorem validLoop_ok (dlLen : Nat) (lossOf : Nat → ℚ) (bs : ℚ) (hd : 0 < dlLen) :
    ∀ (k : Nat) (store : IterStore) (it : ItId) (acc : ℚ) (vis : List Nat),
      ∃ store1 newVis,
        validLoop dlLen (fun b => Except.ok (lossOf b)) bs k store it acc vis =
          (store1, Except.ok (acc + (newVis.map (fun b => lossOf b / bs)).sum,
            vis.reverse ++ newVis)) ∧
        newVis.length = k := by
  intro k
  induction k with
  | zero =>
    intro store it acc vis
    refine ⟨store, [], ?_, rfl⟩
    simp [validLoop]
  | succ k ih =>
    intro store it acc vis
    rcases hstep : itNext dlLen store it with _ | ⟨b, store2⟩
    · rcases halloc : allocIter store with ⟨it2, store1⟩
      rcases hstep2 : itNext dlLen store1 it2 with _ | ⟨b, store2⟩
      · exfalso
        unfold allocIter at halloc
        injection halloc with hA hB
        subst hA
        subst hB
        simp [itNext, hd] at hstep2
      · obtain ⟨store3, newVis, heq, hlen⟩ := ih store2 it2 (acc + lossOf b / bs) (b :: vis)
        refine ⟨store3, b :: newVis, ?_, by simp [hlen]⟩
        simp only [validLoop, hstep, halloc, hstep2, heq]
        simp only [Prod.mk.injEq, Except.ok.injEq, List.map_cons, List.sum_cons,
          List.reverse_cons, List.append_assoc, List.singleton_append]
        exact ⟨trivial, by ring, trivial⟩
    · obtain ⟨store3, newVis, heq, hlen⟩ := ih store2 it (acc + lossOf b / bs) (b :: vis)
      refine ⟨store3, b :: newVis, ?_, by simp [hlen]⟩
      simp only [validLoop, hstep, heq]
      simp only [Prod.mk.injEq, Except.ok.injEq, List.map_cons, List.sum_cons,
        List.reverse_cons, List.append_assoc, List.singleton_append]
      exact ⟨trivial, by ring, trivial⟩

/-- Claim C8: on a nonempty validation set, valid_fn pulls exactly valid_num
    batches, accumulates loss / batch_size over them, returns the accumulated
    sum divided by valid_num — a non-negative value — and ends with the model
    back in training mode.  It receives neither min_loss nor prev_loss (the
    caller owns the checkpoint state), so it cannot mutate them. -/
theorem valid_fn_returns_mean (dlLen vnum : Nat) (bs : ℚ) (lossOf : Nat → ℚ)
    (store : IterStore) (it : ItId) (hd : 0 < dlLen) (_hv : 0 < vnum) (hb : 0 < bs)
    (hl : ∀ b, 0 ≤ lossOf b) :
    ∃ store1 visited,
      valid_fn dlLen vnum (fun b => Except.ok (lossOf b)) bs store it =
        (Mode.training, store1,
          Except.ok ((visited.map (fun b => lossOf b / bs)).sum / (vnum : ℚ), visited)) ∧
      visited.length = vnum ∧
      0 ≤ (visited.map (fun b => lossOf b / bs)).sum / (vnum : ℚ) := by
  obtain ⟨store1, newVis, heq, hlen⟩ := validLoop_ok dlLen lossOf bs hd vnum store it 0 []
  refine ⟨store1, newVis, ?_, hlen, ?_⟩
  · unfold valid_fn
    rw [heq]
    simp
  · apply div_nonneg
    · apply List.sum_nonneg
      intro x hx
      obtain ⟨b, _hb2, rfl⟩ := List.mem_map.mp hx
      exact div_nonneg (hl b) (le_of_lt hb)
    · exact Nat.cast_nonneg vnum

/-- Witness for C8: sampling 3 batches from a 2-batch loader with constant
    per-batch loss 2 and batch_size 1. -/
theorem valid_fn_returns_mean_witness :
    ∃ store1 visited,
      valid_fn 2 3 (fun _ => Except.ok (2 : ℚ)) 1 store0 0 =
        (Mode.training, store1,
          Except.ok ((visited.map (fun _ => (2 : ℚ) / 1)).sum / ((3 : Nat) : ℚ), visited)) ∧
      visited.length = 3 ∧
      0 ≤ (visited.map (fun _ => (2 : ℚ) / 1)).sum / ((3 : Nat) : ℚ) :=
  valid_fn_returns_mean 2 3 1 (fun _ => 2) store0 0 (by norm_num) (by norm_num)
    (by norm_num) (fun _ => by norm_num)

end DRMM
